import Mathlib

/-!
Shallow embedding of the core logic of `src/web/js/app.js` from the
utaipei-room-availability repository: row normalization, date-range
computation, availability aggregation, status-cell rendering, date
formatting, and the date-navigation handlers (`jumpToDate` and the
today-button click handler), together with theorems about them.

JS strings are modelled as Lean `String`; JS `null`/`undefined` as
`Option.none`.  JS relational comparison between two strings is
lexicographic over UTF-16 code units; for the ASCII ISO-date strings this
code compares, that coincides with Lean's lexicographic `String` order.
-/

namespace RoomAvail

/-- A parsed CSV record as consumed by the app (header columns `date`,
`room_id`, `weekday`, `morning`, `afternoon`, `evening`).  A missing or
empty field is modelled as `""`, matching JS falsiness of both
`undefined` and `""` in the normalization filter `row.date && row.room_id`. -/
structure Row where
  date : String
  room_id : String
  weekday : String
  morning : String
  afternoon : String
  evening : String
deriving Repr, DecidableEq

/-- `allData = results.data.filter(row => row.date && row.room_id)`
(app.js line 72): keep rows whose `date` and `room_id` are truthy. -/
def normalizeData (results : List Row) : List Row :=
  results.filter (fun row => row.date != "" && row.room_id != "")

/-- The global `dateRange = { min: null, max: null }` (app.js line 16). -/
structure DateRange where
  min : Option String
  max : Option String
deriving Repr, DecidableEq

/-- Initial value of the global `dateRange` before any data is loaded. -/
def initialDateRange : DateRange := ⟨none, none⟩

/-- JS `a < b` on two strings: lexicographic comparison of the code-unit
sequences (for the ASCII date strings this code compares, code units are
code points, so comparing `Char`s is exact). -/
def jsCharsLt : List Char → List Char → Bool
  | [], [] => false
  | [], _ :: _ => true
  | _ :: _, [] => false
  | a :: as, b :: bs => if a < b then true else if b < a then false else jsCharsLt as bs

/-- JS `a < b` for strings. -/
def jsStrLt (a b : String) : Bool := jsCharsLt a.data b.data

/-- JS `a <= b` for strings: `a <= b` holds exactly when `b < a` fails. -/
def jsStrLe (a b : String) : Bool := !jsStrLt b a

/-- Lexicographic string comparison, the order JS `Array.prototype.sort`
uses by default on an array of strings. -/
def lexLe (a b : String) : Bool := jsStrLe a b

/-- `calculateDateRange` (app.js lines 92-102).  The JS function mutates
the global `dateRange`; here it takes the previous value and returns the
new one.  On empty data it returns early, leaving the previous value.
Otherwise it collects the `date` fields, drops falsy ones, sorts
lexicographically (JS default string sort) and takes the first and last
element (`dates[0]`, `dates[dates.length - 1]`). -/
def calculateDateRange (prev : DateRange) (allData : List Row) : DateRange :=
  if allData.length = 0 then prev
  else
    let dates := (allData.map (·.date)).filter (fun d => d != "")
    let sorted := dates.mergeSort lexLe
    { min := sorted[0]?, max := sorted[sorted.length - 1]? }

/-- One iteration of the `['morning','afternoon','evening'].forEach` body
in `renderTable` (app.js lines 277-283): the pair is
(availableCount, occupiedCount). -/
def periodStep (acc : Nat × Nat) (status : String) : Nat × Nat :=
  if status = "可借用" then (acc.1 + 1, acc.2) else (acc.1, acc.2 + 1)

/-- The per-row counting work of `renderTable`'s `roomData.map` callback:
fold `periodStep` over the row's three period statuses. -/
def rowStep (acc : Nat × Nat) (row : Row) : Nat × Nat :=
  [row.morning, row.afternoon, row.evening].foldl periodStep acc

/-- The statistics accumulated by `renderTable` over the filtered room
rows, starting from `availableCount = 0; occupiedCount = 0`. -/
def countStats (roomData : List Row) : Nat × Nat :=
  roomData.foldl rowStep (0, 0)

/-- The observable aggregation outcome of `renderTable`: the room's rows
in order plus the two counters pushed to `updateStats`. -/
structure AggregateResult where
  rows : List Row
  availableCount : Nat
  occupiedCount : Nat
deriving Repr, DecidableEq

/-- `renderTable` (app.js lines 258-298), restricted to its data logic:
filter `allData` by `row.room_id === currentRoom`; on zero rows render the
"no data" row and call `updateStats(0, 0)`; otherwise count availability
over the three periods of every row and push the counts. -/
def renderTable (allData : List Row) (currentRoom : String) : AggregateResult :=
  let roomData := allData.filter (fun row => row.room_id == currentRoom)
  if roomData.length = 0 then ⟨[], 0, 0⟩
  else ⟨roomData, (countStats roomData).1, (countStats roomData).2⟩

/-- `renderStatusCell` (app.js lines 303-309): exact string equality with
the sentinel decides the rendered cell. -/
def renderStatusCell (status : String) : String :=
  if status = "可借用" then "<td class=\"status-available\">✓ 可借用</td>"
  else "<td class=\"status-occupied\">✗ 已借用</td>"

/-- JS `str.split('-')` on the character list: splitting on a single-char
separator, never returning an empty list (the empty string splits to
`[""]`, i.e. `[[]]`). -/
def splitDashAux : List Char → List (List Char)
  | [] => [[]]
  | c :: cs =>
    if c = '-' then [] :: splitDashAux cs
    else
      match splitDashAux cs with
      | [] => [[c]]
      | p :: ps => (c :: p) :: ps

/-- JS `dateStr.split('-')`. -/
def jsSplitDash (s : String) : List String :=
  (splitDashAux s.data).map (fun cs => String.mk cs)

/-- `formatDate` (app.js lines 314-320): `''` for falsy input, the raw
string when it does not split into exactly 3 parts on `'-'`, otherwise
`parts[1] + '/' + parts[2]`. -/
def formatDate (dateStr : String) : String :=
  if dateStr = "" then ""
  else
    let parts := jsSplitDash dateStr
    if parts.length ≠ 3 then dateStr
    else (parts.getD 1 "") ++ "/" ++ (parts.getD 2 "")

/-- The `selectedMD` computation inside `jumpToDate` (app.js lines
198-199): `dateStr.split('-')` then the template
`parts[1] + '/' + parts[2]` with no length check, so a missing part
interpolates as the string `"undefined"` exactly as a JS template literal
renders `undefined`. -/
def selectedMD (dateStr : String) : String :=
  let parts := jsSplitDash dateStr
  (parts.getD 1 "undefined") ++ "/" ++ (parts.getD 2 "undefined")

/-- A `<tr>` in `#table-body` as `jumpToDate` observes it: the text of its
`.date-col` cell (already in MM/DD form via `formatDate`) and whether it
currently carries the `highlight-row` class. -/
structure RenderedRowState where
  displayDate : String
  highlighted : Bool
deriving Repr, DecidableEq

/-- Remove the `highlight-row` class (`row.classList.remove`, line 191). -/
def clearHighlight (r : RenderedRowState) : RenderedRowState :=
  { r with highlighted := false }

/-- Add the `highlight-row` class to row `i` (the delayed
`targetRow.classList.add('highlight-row')`, line 213); out-of-range `i`
changes nothing. -/
def setHighlight : List RenderedRowState → Nat → List RenderedRowState
  | [], _ => []
  | r :: rs, 0 => { r with highlighted := true } :: rs
  | r :: rs, i + 1 => r :: setHighlight rs i

/-- The target-row scan of `jumpToDate`'s `rows.forEach` (lines 189-205):
`targetRow` is overwritten on every row whose `.date-col` text equals
`selectedMD`, so the last matching row wins.  `i` is the index of the
list head, `acc` the `targetRow` found so far. -/
def findLastMatch (md : String) : List RenderedRowState → Nat → Option Nat → Option Nat
  | [], _, acc => acc
  | r :: rs, i, acc =>
    findLastMatch md rs (i + 1) (if r.displayDate = md then some i else acc)

/-- Observable outcome of one `jumpToDate` call: the row states after the
call (with the delayed highlight applied), the index scrolled into view,
and the toast message it emitted, if any. -/
structure JumpEffect where
  rows : List RenderedRowState
  scrolled : Option Nat
  toast : Option String
deriving Repr, DecidableEq

/-- `jumpToDate` (app.js lines 182-218).  A falsy argument (`null` /
`undefined` / `""`) returns immediately.  Otherwise the single `forEach`
loop both removes the `highlight-row` class from every row and records
the last row whose displayed date equals `selectedMD dateStr` (modelled
as a map plus the `findLastMatch` scan — the clearing never changes a
`displayDate`, so the scan may equivalently read the original rows).
A found target is scrolled and highlighted; otherwise the
"找不到該日期的資料" toast is shown. -/
def jumpToDate (dateStr? : Option String) (rows : List RenderedRowState) : JumpEffect :=
  match dateStr? with
  | none => ⟨rows, none, none⟩
  | some dateStr =>
    if dateStr = "" then ⟨rows, none, none⟩
    else
      let md := selectedMD dateStr
      let cleared := rows.map clearHighlight
      match findLastMatch md rows 0 none with
      | some i => ⟨setHighlight cleared i, some i, none⟩
      | none => ⟨cleared, none, some "找不到該日期的資料"⟩

/-- JS `a >= b` where `a` is one of the ISO `YYYY-MM-DD` strings this code
compares and `b` is `dateRange.min`/`dateRange.max`, possibly `null`.
String-vs-string relational comparison is lexicographic; when `b` is
`null` both sides are converted to numbers, `ToNumber` of a dash-bearing
date string is `NaN`, and every comparison involving `NaN` is false. -/
def jsDateGe (a : String) (b : Option String) : Bool :=
  match b with
  | some s => jsStrLe s a
  | none => false

/-- JS `a <= b` against a possibly-`null` bound (see `jsDateGe`). -/
def jsDateLe (a : String) (b : Option String) : Bool :=
  match b with
  | some s => jsStrLe a s
  | none => false

/-- JS `a < b` against a possibly-`null` bound (see `jsDateGe`). -/
def jsDateLt (a : String) (b : Option String) : Bool :=
  match b with
  | some s => jsStrLt a s
  | none => false

/-- Observable outcome of one today-button click: the value assigned to
the date picker, the effect of the inner `jumpToDate` call, and the toast
emitted by the handler itself (`jumpToDate` may emit its own). -/
structure TodayJumpOutcome where
  pickerValue : Option String
  jump : JumpEffect
  clampToast : Option String
deriving Repr, DecidableEq

/-- The today-button click handler (app.js lines 160-176): if today is
within `[dateRange.min, dateRange.max]` jump to today, else clamp to the
violated boundary and toast about it. -/
def todayButtonClick (dateRange : DateRange) (today : String)
    (rows : List RenderedRowState) : TodayJumpOutcome :=
  if jsDateGe today dateRange.min && jsDateLe today dateRange.max then
    ⟨some today, jumpToDate (some today) rows, none⟩
  else if jsDateLt today dateRange.min then
    ⟨dateRange.min, jumpToDate dateRange.min rows,
      some "今天不在可查詢範圍內，已跳至最早日期"⟩
  else
    ⟨dateRange.max, jumpToDate dateRange.max rows,
      some "今天不在可查詢範圍內，已跳至最晚日期"⟩

/-- The date-picker change handler (app.js lines 154-156): an explicit
date jump is exactly `jumpToDate` on the picked value. -/
def datePickerChange (value : String) (rows : List RenderedRowState) : JumpEffect :=
  jumpToDate (some value) rows

/-- Number of a row's periods whose status is exactly the available
sentinel. -/
def rowAvailable (row : Row) : Nat :=
  ([row.morning, row.afternoon, row.evening].countP (fun s => s == "可借用"))

/-- Number of a row's periods whose status is anything other than the
available sentinel. -/
def rowOccupied (row : Row) : Nat :=
  ([row.morning, row.afternoon, row.evening].countP (fun s => s != "可借用"))

lemma rowStep_eq (acc : Nat × Nat) (row : Row) :
    rowStep acc row = (acc.1 + rowAvailable row, acc.2 + rowOccupied row) := by
  obtain ⟨a, b⟩ := acc
  simp only [rowStep, rowAvailable, rowOccupied, List.foldl, periodStep,
    List.countP_cons, List.countP_nil]
  by_cases h1 : row.morning = "可借用" <;> by_cases h2 : row.afternoon = "可借用" <;>
    by_cases h3 : row.evening = "可借用" <;>
      simp [h1, h2, h3]

lemma rowAvailable_add_rowOccupied (row : Row) :
    rowAvailable row + rowOccupied row = 3 := by
  simp only [rowAvailable, rowOccupied, List.countP_cons, List.countP_nil]
  by_cases h1 : row.morning = "可借用" <;> by_cases h2 : row.afternoon = "可借用" <;>
    by_cases h3 : row.evening = "可借用" <;> simp [h1, h2, h3]

lemma countStats_sum (l : List Row) (a b : Nat) :
    (l.foldl rowStep (a, b)).1 + (l.foldl rowStep (a, b)).2 = a + b + 3 * l.length := by
  induction l generalizing a b with
  | nil => simp
  | cons r rs ih =>
    simp only [List.foldl_cons, rowStep_eq]
    rw [ih]
    have := rowAvailable_add_rowOccupied r
    simp only [List.length_cons]
    omega

/-- C1: for every row appended to the aggregation, each period whose
status is exactly the sentinel "可借用" adds one to `availableCount` and
every other status adds one to `occupiedCount`; the sample row with
morning available, afternoon occupied, evening available yields counts
(2, 1). -/
theorem counting_per_row (prev : List Row) (row : Row) :
    countStats (prev ++ [row]) =
      ((countStats prev).1 + rowAvailable row, (countStats prev).2 + rowOccupied row)
    ∧ renderTable [⟨"2024-03-07", "G201", "四", "可借用", "已借用", "可借用"⟩] "G201"
      = ⟨[⟨"2024-03-07", "G201", "四", "可借用", "已借用", "可借用"⟩], 2, 1⟩ := by
  refine ⟨?_, by decide⟩
  simp only [countStats, List.foldl_append, List.foldl_cons, List.foldl_nil]
  exact rowStep_eq _ _

/-- C2: for every row set and room identifier,
`availableCount + occupiedCount = 3 × (number of rows of that room)`. -/
theorem counts_sum_invariant (allData : List Row) (currentRoom : String) :
    (renderTable allData currentRoom).availableCount
      + (renderTable allData currentRoom).occupiedCount
      = 3 * (allData.filter (fun row => row.room_id == currentRoom)).length := by
  unfold renderTable
  by_cases h : (allData.filter (fun row => row.room_id == currentRoom)).length = 0
  · simp [h]
  · simp only [h, reduceIte]
    simpa [countStats] using
      countStats_sum (allData.filter (fun row => row.room_id == currentRoom)) 0 0

/-- C3: the rendered cell is the "available" cell exactly when the
counting rule credits the period to `availableCount`, and the "occupied"
cell exactly when it credits `occupiedCount`: both decisions are the same
exact string comparison with the sentinel. -/
theorem cell_count_consistency (status : String) (acc : Nat × Nat) :
    (renderStatusCell status = "<td class=\"status-available\">✓ 可借用</td>"
        ↔ periodStep acc status = (acc.1 + 1, acc.2))
    ∧ (renderStatusCell status = "<td class=\"status-occupied\">✗ 已借用</td>"
        ↔ periodStep acc status = (acc.1, acc.2 + 1)) := by
  by_cases h : status = "可借用" <;>
    simp [renderStatusCell, periodStep, h, Prod.ext_iff]

/-- C4 counterexample: `"not-a-date"` splits on `'-'` into exactly the
three parts `["not", "a", "date"]`, so `formatDate` does not return it
unchanged — it returns `"a/date"`. -/
theorem formatDate_not_a_date_counterexample :
    formatDate "not-a-date" = "a/date" ∧ formatDate "not-a-date" ≠ "not-a-date" := by
  decide

/-- C4 (amended): `formatDate` maps `"YYYY-MM-DD"` to `"MM/DD"` by
splitting on `'-'` and taking parts 1 and 2; any input that does not
split into exactly 3 parts is returned unchanged; but `"not-a-date"`
does split into exactly 3 parts, so it is reformatted to `"a/date"`,
not passed through. -/
theorem formatDate_amended :
    formatDate "2024-03-07" = "03/07"
    ∧ (∀ s : String, (jsSplitDash s).length ≠ 3 → formatDate s = s)
    ∧ formatDate "not-a-date" = "a/date" := by
  refine ⟨by decide, ?_, by decide⟩
  intro s hs
  by_cases h : s = ""
  · simp [formatDate, h]
  · simp [formatDate, h, hs]

/-- Witness for the hypothesis of `formatDate_amended`: `"abc"` splits
into one part, so it passes through unchanged. -/
theorem formatDate_amended_witness : formatDate "abc" = "abc" :=
  formatDate_amended.2.1 "abc" (by decide)

/-- Whether the rendered row at index `k` displays exactly `md`. -/
def matchesAt (rows : List RenderedRowState) (md : String) (k : Nat) : Bool :=
  match rows[k]? with
  | some r => r.displayDate == md
  | none => false

lemma findLastMatch_eq_none (md : String) :
    ∀ (l : List RenderedRowState) (i : Nat) (acc : Option Nat),
      findLastMatch md l i acc = none ↔ acc = none ∧ ∀ r ∈ l, r.displayDate ≠ md := by
  intro l
  induction l with
  | nil => intro i acc; simp [findLastMatch]
  | cons r rs ih =>
    intro i acc
    by_cases h : r.displayDate = md <;>
      simp [findLastMatch, h, ih]

lemma findLastMatch_eq_some (md : String) :
    ∀ (l : List RenderedRowState) (i : Nat) (acc : Option Nat) (j : Nat),
      findLastMatch md l i acc = some j →
        (∃ k, matchesAt l md k = true ∧ j = i + k
            ∧ ∀ k', k < k' → matchesAt l md k' = false)
        ∨ (acc = some j ∧ ∀ k, matchesAt l md k = false) := by
  intro l
  induction l with
  | nil =>
    intro i acc j hacc
    right
    exact ⟨hacc, fun k => by simp [matchesAt]⟩
  | cons r rs ih =>
    intro i acc j hfind
    rw [findLastMatch] at hfind
    rcases ih (i + 1) _ j hfind with ⟨k, hk, hj, hafter⟩ | ⟨hacc, hnone⟩
    · left
      refine ⟨k + 1, ?_, by omega, ?_⟩
      · simpa [matchesAt] using hk
      · intro k' hk'
        obtain ⟨k'', rfl⟩ : ∃ k'', k' = k'' + 1 := ⟨k' - 1, by omega⟩
        simpa [matchesAt] using hafter k'' (by omega)
    · by_cases h : r.displayDate = md
      · left
        rw [if_pos h] at hacc
        obtain rfl : i = j := Option.some.inj hacc
        refine ⟨0, by simp [matchesAt, h], by omega, ?_⟩
        intro k' hk'
        obtain ⟨k'', rfl⟩ : ∃ k'', k' = k'' + 1 := ⟨k' - 1, by omega⟩
        simpa [matchesAt] using hnone k''
      · right
        rw [if_neg h] at hacc
        refine ⟨hacc, ?_⟩
        intro k
        match k with
        | 0 => simp [matchesAt, h]
        | k'' + 1 => simpa [matchesAt] using hnone k''

lemma getElem_setHighlight (l : List RenderedRowState) (i j : Nat) :
    (setHighlight l i)[j]? =
      if j = i then (l[j]?).map (fun r => { r with highlighted := true })
      else l[j]? := by
  induction l generalizing i j with
  | nil => simp [setHighlight]
  | cons r rs ih =>
    match i, j with
    | 0, 0 => simp [setHighlight]
    | 0, j + 1 => simp [setHighlight]
    | i + 1, 0 => simp [setHighlight]
    | i + 1, j + 1 =>
      simp only [setHighlight, List.getElem?_cons_succ, ih]
      by_cases h : j = i <;> simp [h]

lemma cleared_not_highlighted (rows : List RenderedRowState) (j : Nat) :
    ((rows.map clearHighlight)[j]?).any (fun r => r.highlighted) = false := by
  rcases h : rows[j]? with _ | r <;> simp [List.getElem?_map, h, clearHighlight]

lemma jumpToDate_eq (dateStr : String) (rows : List RenderedRowState)
    (hne : dateStr ≠ "") :
    jumpToDate (some dateStr) rows =
      match findLastMatch (selectedMD dateStr) rows 0 none with
      | some i => ⟨setHighlight (rows.map clearHighlight) i, some i, none⟩
      | none => ⟨rows.map clearHighlight, none, some "找不到該日期的資料"⟩ := by
  simp only [jumpToDate, if_neg hne]

lemma jumpToDate_found (dateStr : String) (rows : List RenderedRowState)
    (hne : dateStr ≠ "") (i : Nat)
    (hfind : findLastMatch (selectedMD dateStr) rows 0 none = some i) :
    jumpToDate (some dateStr) rows =
      ⟨setHighlight (rows.map clearHighlight) i, some i, none⟩ := by
  rw [jumpToDate_eq dateStr rows hne, hfind]

lemma jumpToDate_notfound (dateStr : String) (rows : List RenderedRowState)
    (hne : dateStr ≠ "")
    (hfind : findLastMatch (selectedMD dateStr) rows 0 none = none) :
    jumpToDate (some dateStr) rows =
      ⟨rows.map clearHighlight, none, some "找不到該日期的資料"⟩ := by
  rw [jumpToDate_eq dateStr rows hne, hfind]

/-- C6: a non-empty date jump is Found (a row is scrolled to) exactly when
some currently rendered row's displayed date equals the MM/DD projection
of the requested ISO date; and any two non-empty requested dates with the
same MM/DD projection (e.g. the same month and day in different years)
produce identical jump behaviour. -/
theorem jump_match_md (dateStr : String) (rows : List RenderedRowState)
    (hne : dateStr ≠ "") :
    ((jumpToDate (some dateStr) rows).scrolled.isSome
        ↔ ∃ r ∈ rows, r.displayDate = selectedMD dateStr)
    ∧ ∀ d2 : String, d2 ≠ "" → selectedMD d2 = selectedMD dateStr →
        jumpToDate (some d2) rows = jumpToDate (some dateStr) rows := by
  constructor
  · rcases hfind : findLastMatch (selectedMD dateStr) rows 0 none with _ | i
    · rw [jumpToDate_notfound dateStr rows hne hfind]
      have hall := (findLastMatch_eq_none _ _ _ _).mp hfind
      simp only [Option.isSome_none, Bool.false_eq_true, false_iff]
      push_neg
      exact hall.2
    · rw [jumpToDate_found dateStr rows hne i hfind]
      simp only [Option.isSome_some, true_iff]
      by_contra hno
      push_neg at hno
      have : findLastMatch (selectedMD dateStr) rows 0 none = none :=
        (findLastMatch_eq_none _ _ _ _).mpr ⟨rfl, hno⟩
      rw [hfind] at this
      exact Option.some_ne_none i this
  · intro d2 hd2 hmd
    rw [jumpToDate_eq d2 rows hd2, jumpToDate_eq dateStr rows hne, hmd]

/-- Witness for `jump_match_md`: jumping to 2024-03-07 over a table that
displays "03/07" finds a row. -/
theorem jump_match_md_witness :
    (jumpToDate (some "2024-03-07") [⟨"03/07", false⟩]).scrolled.isSome :=
  (jump_match_md "2024-03-07" [⟨"03/07", false⟩] (by decide)).1.mpr
    ⟨⟨"03/07", false⟩, by decide, by decide⟩

/-- C9 counterexample: a NotFound jump over a table whose single row is
currently highlighted emits the toast but also clears that highlight, so
a rendered row's highlight state is altered. -/
theorem notfound_alters_highlight_counterexample :
    (jumpToDate (some "2024-12-25") [⟨"03/07", true⟩]).rows ≠ [⟨"03/07", true⟩]
    ∧ (jumpToDate (some "2024-12-25") [⟨"03/07", true⟩]).toast
        = some "找不到該日期的資料" := by
  decide

/-- C9 (amended): when no rendered row's displayed date matches the
request, the navigator emits the transient "找不到該日期的資料" toast,
scrolls nothing and adds no highlight; the rows and their displayed dates
are otherwise untouched, except that the `highlight-row` class is first
removed from every row, so a pre-existing highlight is cleared. -/
theorem notfound_effect (dateStr : String) (rows : List RenderedRowState)
    (hne : dateStr ≠ "")
    (hnm : ∀ r ∈ rows, r.displayDate ≠ selectedMD dateStr) :
    jumpToDate (some dateStr) rows =
      ⟨rows.map clearHighlight, none, some "找不到該日期的資料"⟩ :=
  jumpToDate_notfound dateStr rows hne
    ((findLastMatch_eq_none (selectedMD dateStr) rows 0 none).mpr ⟨rfl, hnm⟩)

/-- Witness for `notfound_effect` at a concrete highlighted row and a
date displayed nowhere. -/
theorem notfound_effect_witness :
    jumpToDate (some "2024-12-25") [⟨"03/07", true⟩] =
      ⟨[⟨"03/07", true⟩].map clearHighlight, none, some "找不到該日期的資料"⟩ :=
  notfound_effect "2024-12-25" [⟨"03/07", true⟩] (by decide) (by decide)

/-- C10: every non-empty date jump clears the highlight class from every
row before matching, so afterwards a row is highlighted only if it is the
single scrolled target; and the scrolled target is the last row in
display order whose displayed date equals the requested MM/DD projection
(any later row does not match). -/
theorem jump_highlight_invariant (dateStr : String) (rows : List RenderedRowState)
    (hne : dateStr ≠ "") :
    (∀ j, (((jumpToDate (some dateStr) rows).rows[j]?).any (fun r => r.highlighted)) = true →
        (jumpToDate (some dateStr) rows).scrolled = some j)
    ∧ (∀ i, (jumpToDate (some dateStr) rows).scrolled = some i →
        matchesAt rows (selectedMD dateStr) i = true
        ∧ ∀ j, i < j → matchesAt rows (selectedMD dateStr) j = false) := by
  rcases hfind : findLastMatch (selectedMD dateStr) rows 0 none with _ | i
  · rw [jumpToDate_notfound dateStr rows hne hfind]
    refine ⟨fun j hj => ?_, fun i hi => by simp at hi⟩
    simp only at hj
    rw [cleared_not_highlighted rows j] at hj
    exact absurd hj (by simp)
  · rw [jumpToDate_found dateStr rows hne i hfind]
    have hspec := findLastMatch_eq_some (selectedMD dateStr) rows 0 none i hfind
    rcases hspec with ⟨k, hk, hik, hafter⟩ | ⟨hacc, _⟩
    · obtain rfl : i = k := by omega
      constructor
      · intro j hj
        simp only at hj ⊢
        by_cases hji : j = i
        · exact congrArg some hji.symm
        · rw [getElem_setHighlight, if_neg hji, cleared_not_highlighted rows j] at hj
          exact absurd hj (by simp)
      · intro i' hi'
        simp only [Option.some.injEq] at hi'
        subst hi'
        exact ⟨hk, hafter⟩
    · exact absurd hacc (by simp)

/-- Witness for `jump_highlight_invariant`: with two rows both displaying
"03/07", the jump to 2024-03-07 scrolls row 1 (the last match), which
therefore matches. -/
theorem jump_highlight_invariant_witness :
    matchesAt [⟨"03/07", false⟩, ⟨"03/07", false⟩] (selectedMD "2024-03-07") 1 = true :=
  ((jump_highlight_invariant "2024-03-07" [⟨"03/07", false⟩, ⟨"03/07", false⟩]
      (by decide)).2 1 (by decide)).1

lemma jsCharsLt_irrefl : ∀ l : List Char, jsCharsLt l l = false
  | [] => rfl
  | c :: cs => by simp [jsCharsLt, lt_irrefl, jsCharsLt_irrefl cs]

lemma jsCharsLt_trans :
    ∀ l1 l2 l3 : List Char, jsCharsLt l1 l2 = true → jsCharsLt l2 l3 = true →
      jsCharsLt l1 l3 = true := by
  intro l1
  induction l1 with
  | nil =>
    intro l2 l3 h12 h23
    match l2, l3 with
    | [], _ => simp [jsCharsLt] at h12
    | _ :: _, [] => simp [jsCharsLt] at h23
    | _ :: _, _ :: _ => rfl
  | cons a as ih =>
    intro l2 l3 h12 h23
    match l2, l3 with
    | [], _ => simp [jsCharsLt] at h12
    | _ :: _, [] => simp [jsCharsLt] at h23
    | b :: bs, c :: cs =>
      rw [jsCharsLt] at h12 h23 ⊢
      by_cases hab : a < b
      · by_cases hbc : b < c
        · rw [if_pos (lt_trans hab hbc)]
        · by_cases hcb : c < b
          · simp [hbc, hcb] at h23
          · have hbc' : b = c := le_antisymm (not_lt.mp hcb) (not_lt.mp hbc)
            rw [if_pos (hbc' ▸ hab)]
      · by_cases hba : b < a
        · simp [hab, hba] at h12
        · have hab' : a = b := le_antisymm (not_lt.mp hba) (not_lt.mp hab)
          subst hab'
          rw [if_neg hab, if_neg hab] at h12
          by_cases hbc : a < c
          · rw [if_pos hbc]
          · by_cases hcb : c < a
            · simp [hbc, hcb] at h23
            · rw [if_neg hbc, if_neg hcb] at h23 ⊢
              exact ih bs cs h12 h23

lemma jsCharsLt_asymm :
    ∀ l1 l2 : List Char, jsCharsLt l1 l2 = true → jsCharsLt l2 l1 = false := by
  intro l1
  induction l1 with
  | nil =>
    intro l2 _
    match l2 with
    | [] => rfl
    | _ :: _ => rfl
  | cons a as ih =>
    intro l2 h12
    match l2 with
    | [] => simp [jsCharsLt] at h12
    | b :: bs =>
      rw [jsCharsLt] at h12 ⊢
      by_cases hab : a < b
      · rw [if_neg (lt_asymm hab), if_pos hab]
      · by_cases hba : b < a
        · simp [hab, hba] at h12
        · rw [if_neg hab, if_neg hba] at h12
          rw [if_neg hba, if_neg hab]
          exact ih bs h12

lemma jsCharsLt_conn :
    ∀ l1 l2 : List Char, jsCharsLt l1 l2 = false → jsCharsLt l2 l1 = false →
      l1 = l2 := by
  intro l1
  induction l1 with
  | nil =>
    intro l2 h12 _
    match l2 with
    | [] => rfl
    | _ :: _ => simp [jsCharsLt] at h12
  | cons a as ih =>
    intro l2 h12 h21
    match l2 with
    | [] => simp [jsCharsLt] at h21
    | b :: bs =>
      rw [jsCharsLt] at h12 h21
      by_cases hab : a < b
      · simp [hab] at h12
      · by_cases hba : b < a
        · simp [hab, hba] at h21
        · have hab' : a = b := le_antisymm (not_lt.mp hba) (not_lt.mp hab)
          rw [if_neg hab, if_neg hba] at h12
          rw [if_neg hba, if_neg hab] at h21
          rw [hab', ih bs h12 h21]

lemma jsStrLe_refl (a : String) : jsStrLe a a = true := by
  simp [jsStrLe, jsStrLt, jsCharsLt_irrefl]

lemma jsStrLt_trans {a b c : String} (h1 : jsStrLt a b = true) (h2 : jsStrLt b c = true) :
    jsStrLt a c = true :=
  jsCharsLt_trans a.data b.data c.data h1 h2

lemma jsStrLe_trans {a b c : String} (h1 : jsStrLe a b = true) (h2 : jsStrLe b c = true) :
    jsStrLe a c = true := by
  simp only [jsStrLe, Bool.not_eq_true'] at h1 h2 ⊢
  by_cases hca : jsStrLt c a = true
  · by_cases hbc : jsStrLt b c = true
    · exact absurd (jsStrLt_trans hbc hca) (by simp [h1])
    · have hbc' : b.data = c.data :=
        jsCharsLt_conn b.data c.data (by simpa [jsStrLt] using hbc) h2
      have : jsStrLt b a = true := by simpa [jsStrLt, hbc'] using hca
      exact absurd this (by simp [h1])
  · simpa using hca

lemma jsStrLe_total (a b : String) : (jsStrLe a b || jsStrLe b a) = true := by
  simp only [jsStrLe, Bool.not_eq_true', Bool.or_eq_true]
  by_cases h : jsCharsLt b.data a.data = true
  · right
    simpa [jsStrLt] using jsCharsLt_asymm b.data a.data h
  · left
    simpa [jsStrLt] using h

lemma jsStrLt_of_not_le {a b : String} (h : jsStrLe a b = false) : jsStrLt b a = true := by
  simpa [jsStrLe] using h

lemma calculateDateRange_spec (prev : DateRange) (allData : List Row)
    (hne : allData ≠ []) (hdates : ∀ r ∈ allData, r.date ≠ "") :
    ∃ mn mx, calculateDateRange prev allData = ⟨some mn, some mx⟩
      ∧ mn ∈ allData.map (·.date) ∧ mx ∈ allData.map (·.date)
      ∧ ∀ d ∈ allData.map (·.date), jsStrLe mn d = true ∧ jsStrLe d mx = true := by
  have hlen : ¬ allData.length = 0 := by simpa [List.length_eq_zero] using hne
  have hfilter : (allData.map (·.date)).filter (fun d => d != "") = allData.map (·.date) := by
    refine List.filter_eq_self.mpr ?_
    intro d hd
    obtain ⟨r, hr, rfl⟩ := List.mem_map.mp hd
    simpa using hdates r hr
  have htrans : ∀ a b c : String, lexLe a b = true → lexLe b c = true → lexLe a c = true :=
    fun _ _ _ h1 h2 => jsStrLe_trans h1 h2
  have htotal : ∀ a b : String, (lexLe a b || lexLe b a) = true :=
    fun a b => jsStrLe_total a b
  have hpw : ((allData.map (·.date)).mergeSort lexLe).Pairwise (fun a b => lexLe a b = true) :=
    List.sorted_mergeSort htrans htotal (allData.map (·.date))
  have hmem : ∀ d : String,
      d ∈ (allData.map (·.date)).mergeSort lexLe ↔ d ∈ allData.map (·.date) :=
    fun d => List.mem_mergeSort
  have hlen2 : ((allData.map (·.date)).mergeSort lexLe).length = allData.length := by
    simp
  rcases hs : (allData.map (·.date)).mergeSort lexLe with _ | ⟨mn0, rest⟩
  · rw [hs] at hlen2
    exact absurd hlen2.symm hlen
  · rcases hr : ((allData.map (·.date)).mergeSort lexLe).reverse with _ | ⟨mx0, revtail⟩
    · rw [hs] at hr
      simp at hr
    · have hpwr : (((allData.map (·.date)).mergeSort lexLe).reverse).Pairwise
          (fun a b => lexLe b a = true) := List.pairwise_reverse.mpr hpw
      refine ⟨mn0, mx0, ?_, ?_, ?_, ?_⟩
      · simp only [calculateDateRange, if_neg hlen, hfilter]
        rw [← List.getLast?_eq_getElem?, List.getLast?_eq_head?_reverse, hr, hs]
        simp
      · exact (hmem mn0).mp (hs ▸ List.mem_cons_self mn0 rest)
      · have : mx0 ∈ ((allData.map (·.date)).mergeSort lexLe).reverse :=
          hr ▸ List.mem_cons_self mx0 revtail
        exact (hmem mx0).mp (List.mem_reverse.mp this)
      · intro d hd
        have hdsorted : d ∈ (allData.map (·.date)).mergeSort lexLe := (hmem d).mpr hd
        constructor
        · rw [hs] at hdsorted hpw
          rcases List.mem_cons.mp hdsorted with rfl | hdr
          · exact jsStrLe_refl d
          · exact List.rel_of_pairwise_cons hpw hdr
        · have hdrev : d ∈ mx0 :: revtail := hr ▸ List.mem_reverse.mpr hdsorted
          rw [hr] at hpwr
          rcases List.mem_cons.mp hdrev with rfl | hdr
          · exact jsStrLe_refl d
          · exact List.rel_of_pairwise_cons hpwr hdr

/-- The three-row data set of the spec's range-computation example. -/
def exampleRangeRows : List Row :=
  [⟨"2024-03-10", "G201", "日", "可借用", "可借用", "可借用"⟩,
   ⟨"2024-01-05", "G201", "五", "可借用", "可借用", "可借用"⟩,
   ⟨"2024-02-20", "G201", "二", "可借用", "可借用", "可借用"⟩]

/-- C7: on a non-empty row set with non-empty dates, `calculateDateRange`
returns the lexicographic minimum and maximum of the collected dates
(first and last of the lexicographically sorted date list); on the empty
input the range stays `{null, null}`; and the spec's example dates
["2024-03-10", "2024-01-05", "2024-02-20"] yield
{min: "2024-01-05", max: "2024-03-10"}. -/
theorem date_range_min_max (allData : List Row)
    (hne : allData ≠ []) (hdates : ∀ r ∈ allData, r.date ≠ "") :
    (∃ mn mx, calculateDateRange initialDateRange allData = ⟨some mn, some mx⟩
      ∧ mn ∈ allData.map (·.date) ∧ mx ∈ allData.map (·.date)
      ∧ ∀ d ∈ allData.map (·.date), jsStrLe mn d = true ∧ jsStrLe d mx = true)
    ∧ calculateDateRange initialDateRange [] = ⟨none, none⟩
    ∧ calculateDateRange initialDateRange exampleRangeRows
        = ⟨some "2024-01-05", some "2024-03-10"⟩ := by
  refine ⟨calculateDateRange_spec initialDateRange allData hne hdates,
    by simp [calculateDateRange, initialDateRange], ?_⟩
  obtain ⟨mn, mx, heq, hmnmem, hmxmem, hbd⟩ :=
    calculateDateRange_spec initialDateRange exampleRangeRows (by decide) (by decide)
  have hmn := (hbd "2024-01-05" (by simp [exampleRangeRows])).1
  have hmx := (hbd "2024-03-10" (by simp [exampleRangeRows])).2
  simp only [exampleRangeRows, List.map_cons, List.map_nil, List.mem_cons,
    List.not_mem_nil, or_false] at hmnmem hmxmem
  rcases hmnmem with rfl | rfl | rfl
  · exact absurd hmn (by decide)
  · rcases hmxmem with rfl | rfl | rfl
    · exact heq
    · exact absurd hmx (by decide)
    · exact absurd hmx (by decide)
  · exact absurd hmn (by decide)

/-- Witness for `date_range_min_max` at a one-row data set; the empty
data set leaves the range at `{null, null}`. -/
theorem date_range_min_max_witness :
    calculateDateRange initialDateRange [] = ⟨none, none⟩ :=
  (date_range_min_max [⟨"2024-01-01", "G201", "一", "可借用", "可借用", "可借用"⟩]
    (by decide) (by decide)).2.1

lemma todayButtonClick_inRange (mn mx today : String) (rows : List RenderedRowState)
    (h1 : jsStrLe mn today = true) (h2 : jsStrLe today mx = true) :
    todayButtonClick ⟨some mn, some mx⟩ today rows
      = ⟨some today, jumpToDate (some today) rows, none⟩ := by
  simp [todayButtonClick, jsDateGe, jsDateLe, h1, h2]

lemma todayButtonClick_low (mn mx today : String) (rows : List RenderedRowState)
    (h : jsStrLt today mn = true) :
    todayButtonClick ⟨some mn, some mx⟩ today rows
      = ⟨some mn, jumpToDate (some mn) rows, some "今天不在可查詢範圍內，已跳至最早日期"⟩ := by
  have hge : jsStrLe mn today = false := by simp [jsStrLe, h]
  simp [todayButtonClick, jsDateGe, jsDateLe, jsDateLt, hge, h]

lemma todayButtonClick_high (mn mx today : String) (rows : List RenderedRowState)
    (h1 : jsStrLt mx today = true) (h2 : jsStrLe mn mx = true) :
    todayButtonClick ⟨some mn, some mx⟩ today rows
      = ⟨some mx, jumpToDate (some mx) rows, some "今天不在可查詢範圍內，已跳至最晚日期"⟩ := by
  have hle : jsStrLe today mx = false := by simp [jsStrLe, h1]
  have hlt : jsStrLt today mn = false := by
    by_contra hx
    rw [Bool.not_eq_false] at hx
    have hmxmn := jsStrLt_trans h1 hx
    rw [jsStrLe] at h2
    simp [hmxmn] at h2
  simp [todayButtonClick, jsDateGe, jsDateLe, jsDateLt, hle, hlt]

/-- C5: with a non-empty range [mn, mx]: if mn ≤ today ≤ mx (JS string
comparison) the click sets the picker to today and performs exactly the
explicit-date jump to today, with no clamp notice; if today < mn it
resolves to mn and emits the low-boundary notice; if today > mx (with a
well-formed range, mn ≤ mx) it resolves to mx and emits the high-boundary
notice; and the range 2024-03-01..2024-03-31 with today 2024-02-15
resolves to 2024-03-01 with the low-boundary notice. -/
theorem today_clamp (mn mx today : String) (rows : List RenderedRowState) :
    (jsStrLe mn today = true → jsStrLe today mx = true →
      todayButtonClick ⟨some mn, some mx⟩ today rows
        = ⟨some today, datePickerChange today rows, none⟩)
    ∧ (jsStrLt today mn = true →
      todayButtonClick ⟨some mn, some mx⟩ today rows
        = ⟨some mn, jumpToDate (some mn) rows, some "今天不在可查詢範圍內，已跳至最早日期"⟩)
    ∧ (jsStrLt mx today = true → jsStrLe mn mx = true →
      todayButtonClick ⟨some mn, some mx⟩ today rows
        = ⟨some mx, jumpToDate (some mx) rows, some "今天不在可查詢範圍內，已跳至最晚日期"⟩)
    ∧ todayButtonClick ⟨some "2024-03-01", some "2024-03-31"⟩ "2024-02-15" rows
        = ⟨some "2024-03-01", jumpToDate (some "2024-03-01") rows,
            some "今天不在可查詢範圍內，已跳至最早日期"⟩ :=
  ⟨fun h1 h2 => todayButtonClick_inRange mn mx today rows h1 h2,
   fun h => todayButtonClick_low mn mx today rows h,
   fun h1 h2 => todayButtonClick_high mn mx today rows h1 h2,
   todayButtonClick_low "2024-03-01" "2024-03-31" "2024-02-15" rows (by decide)⟩

/-- Witness for `today_clamp`: today 2024-03-15 lies inside
2024-03-01..2024-03-31, so the click is exactly the explicit jump. -/
theorem today_clamp_witness :
    todayButtonClick ⟨some "2024-03-01", some "2024-03-31"⟩ "2024-03-15" []
      = ⟨some "2024-03-15", datePickerChange "2024-03-15" [], none⟩ :=
  (today_clamp "2024-03-01" "2024-03-31" "2024-03-15" []).1 (by decide) (by decide)

/-- C8 counterexample: with an empty data set (`dateRange` still
`{null, null}`) the today-button click is not a no-op — it emits the
"jumped to latest date" toast. -/
theorem empty_range_today_counterexample :
    (todayButtonClick ⟨none, none⟩ "2024-02-15" []).clampToast
      = some "今天不在可查詢範圍內，已跳至最晚日期" := by decide

/-- C8 (amended): with an empty data set, a today click resolves no date
for the inner jump — `jumpToDate(null)` returns immediately, so no row is
scrolled, highlighted or changed — but the click is not a full no-op:
both comparisons against the null bounds are false (NaN semantics), so
the handler falls into the upper-clamp branch, assigns `null` to the date
picker and emits the high-boundary notice. -/
theorem empty_range_today (today : String) (rows : List RenderedRowState)
    (hiso : (jsSplitDash today).length = 3) :
    todayButtonClick ⟨none, none⟩ today rows
      = ⟨none, ⟨rows, none, none⟩, some "今天不在可查詢範圍內，已跳至最晚日期"⟩ := rfl

/-- Witness for `empty_range_today` at a concrete ISO date. -/
theorem empty_range_today_witness :
    todayButtonClick ⟨none, none⟩ "2024-02-15" []
      = ⟨none, ⟨[], none, none⟩, some "今天不在可查詢範圍內，已跳至最晚日期"⟩ :=
  empty_range_today "2024-02-15" [] (by decide)

end RoomAvail
